import Mathlib

/-!
Verification development for the KDBear client library (C++ sources under
`src/`).  The definitions below are a shallow embedding of the program:

* the type registry, validators, value assigners and formatters of
  `src/src/inline_query.cpp` (`createExtendedTypeMap`, `assign_value`,
  `infer_column_type`),
* the query builders and result processors of `src/src/print_result.cpp`
  (`QueryBuilder::build_iloc_query`, `QueryBuilder::build_loc_query`,
  `QueryBuilder::process_condition`, `TableProcessor::process_table_result`,
  `ResultProcessor::process_iloc_result`, `iloc`, `loc`),
* the join orchestration of `src/src/joins.cpp` (`prepare_tables`,
  `cleanup_tables`, `execute_join` and the six join functions).

Machine integers are modelled as `Int`/`Nat` with explicit wrapping where the
C++ code can overflow; C++ exceptions are modelled with `Except`; calls to the
external kdb+ engine are modelled by explicit traces of the query strings the
code sends, together with a small state of globally defined table names.
-/

deriving instance DecidableEq for Except

namespace KDBear

/-! ## Character classes (C locale, ASCII) -/

/-- Model of `isspace` of the C locale: space, \t, \n, \v, \f, \r. -/
def isCSpace (c : Char) : Bool :=
  c.toNat = 32 || c.toNat = 9 || c.toNat = 10 || c.toNat = 11 ||
  c.toNat = 12 || c.toNat = 13

/-- ASCII decimal digit. -/
def isDigitCh (c : Char) : Bool := 48 ≤ c.toNat && c.toNat ≤ 57

/-- ASCII letter. -/
def isAlphaCh (c : Char) : Bool :=
  (97 ≤ c.toNat && c.toNat ≤ 122) || (65 ≤ c.toNat && c.toNat ≤ 90)

/-- Regex `\w`: letter, digit or underscore. -/
def isWordCh (c : Char) : Bool := isAlphaCh c || isDigitCh c || c.toNat = 95

/-- ASCII hexadecimal digit. -/
def isHexCh (c : Char) : Bool :=
  isDigitCh c || (97 ≤ c.toNat && c.toNat ≤ 102) || (65 ≤ c.toNat && c.toNat ≤ 70)

/-- Model of `::tolower` of the C locale on ASCII data. -/
def toLowerCh (c : Char) : Char :=
  if 65 ≤ c.toNat && c.toNat ≤ 90 then Char.ofNat (c.toNat + 32) else c

/-- Lower-case an entire string (`std::transform(..., ::tolower)`). -/
def toLowerStr (s : String) : String := ⟨s.data.map toLowerCh⟩

/-- Trim the characters of `cs` from both ends of a string; this is the
`find_first_not_of`/`find_last_not_of` erase idiom used by `loc` and by the
boolean value assigner. -/
def trimChars (cs : List Char) (s : String) : String :=
  ⟨((s.data.dropWhile (· ∈ cs)).reverse.dropWhile (· ∈ cs)).reverse⟩

/-! ## Decimal rendering (`std::to_string`) and numeric parsing

`std::to_string` on integral values prints an optional minus sign followed by
the decimal digits.  `strtol`/`std::stoi`/`std::stoll` skip C-locale
whitespace, accept an optional sign, consume a maximal digit run and leave
`end` at the first unconsumed character. -/

/-- The ASCII digit character for a digit value (`0`–`9`). -/
def digitChar : Nat → Char
  | 0 => '0' | 1 => '1' | 2 => '2' | 3 => '3' | 4 => '4'
  | 5 => '5' | 6 => '6' | 7 => '7' | 8 => '8' | _ => '9'

/-- Numeric value of an ASCII digit character. -/
def digitVal (c : Char) : Nat := c.toNat - 48

/-- Decimal digits, least significant first; the first argument is fuel
(`n` itself is always enough fuel, see `natDigitsRev`). -/
def natDigitsRevAux : Nat → Nat → List Char
  | _, 0 => []
  | 0, _ + 1 => []
  | fuel + 1, n + 1 => digitChar ((n + 1) % 10) :: natDigitsRevAux fuel ((n + 1) / 10)

/-- Decimal digits of a positive number, least significant first. -/
def natDigitsRev (n : Nat) : List Char := natDigitsRevAux n n

/-- Decimal digits of a natural number, most significant first. -/
def natDigits (n : Nat) : List Char :=
  if n = 0 then ['0'] else (natDigitsRev n).reverse

/-- Model of `std::to_string` on an integral value. -/
def toDecString (v : Int) : String :=
  if v < 0 then ⟨'-' :: natDigits v.natAbs⟩ else ⟨natDigits v.natAbs⟩

/-- Value of a most-significant-first digit run, as read by `strtol`. -/
def digitsVal (l : List Char) : Nat :=
  l.foldl (fun a c => 10 * a + digitVal c) 0

/-- Lemmas about the decimal digits. -/
theorem digitVal_digitChar {r : Nat} (h : r < 10) : digitVal (digitChar r) = r := by
  interval_cases r <;> rfl

theorem isDigitCh_digitChar {r : Nat} (h : r < 10) : isDigitCh (digitChar r) = true := by
  interval_cases r <;> rfl

theorem natDigitsRevAux_all_digits (fuel : Nat) :
    ∀ n, ∀ c ∈ natDigitsRevAux fuel n, isDigitCh c = true := by
  induction fuel with
  | zero =>
    intro n c hc
    match n with
    | 0 => simp [natDigitsRevAux] at hc
    | _ + 1 => simp [natDigitsRevAux] at hc
  | succ fuel ih =>
    intro n c hc
    match n with
    | 0 => simp [natDigitsRevAux] at hc
    | m + 1 =>
      rw [natDigitsRevAux] at hc
      rcases List.mem_cons.mp hc with h | h
      · subst h; exact isDigitCh_digitChar (Nat.mod_lt _ (by omega))
      · exact ih ((m + 1) / 10) c h

theorem natDigits_all_digits (n : Nat) : ∀ c ∈ natDigits n, isDigitCh c = true := by
  intro c hc
  by_cases h : n = 0
  · subst h; simp [natDigits] at hc; subst hc; rfl
  · rw [natDigits, if_neg h] at hc
    exact natDigitsRevAux_all_digits n n c (List.mem_reverse.mp hc)

theorem natDigits_ne_nil (n : Nat) : natDigits n ≠ [] := by
  by_cases h : n = 0
  · subst h; simp [natDigits]
  · rw [natDigits, if_neg h]
    intro hcon
    have h2 := List.reverse_eq_nil_iff.mp hcon
    match m : n, h, h2 with
    | m + 1, _, h2 =>
      rw [natDigitsRev, natDigitsRevAux] at h2
      simp at h2

/-- Fold of the parser over reversed least-significant-first digits. -/
theorem digitsVal_reverse_natDigitsRevAux (fuel : Nat) :
    ∀ n, n ≤ fuel → digitsVal (natDigitsRevAux fuel n).reverse = n := by
  induction fuel with
  | zero =>
    intro n hn
    match n, hn with
    | 0, _ => rfl
  | succ fuel ih =>
    intro n hn
    match n with
    | 0 => rfl
    | m + 1 =>
      rw [natDigitsRevAux, List.reverse_cons]
      unfold digitsVal
      rw [List.foldl_append]
      have hrec := ih ((m + 1) / 10) (by
        have := Nat.div_lt_self (Nat.succ_pos m) (show 1 < 10 by omega)
        omega)
      unfold digitsVal at hrec
      rw [hrec, List.foldl_cons, List.foldl_nil,
        digitVal_digitChar (Nat.mod_lt _ (by omega))]
      omega

theorem digitsVal_natDigits (n : Nat) : digitsVal (natDigits n) = n := by
  by_cases h : n = 0
  · subst h; rfl
  · rw [natDigits, if_neg h]
    exact digitsVal_reverse_natDigitsRevAux n n (Nat.le_refl n)

theorem not_isCSpace_of_isDigitCh {c : Char} (h : isDigitCh c = true) :
    isCSpace c = false := by
  unfold isDigitCh at h
  unfold isCSpace
  simp only [Bool.and_eq_true, decide_eq_true_eq] at h
  simp only [Bool.or_eq_false_iff, decide_eq_false_iff_not]
  omega

theorem takeWhile_all {α : Type} {p : α → Bool} :
    ∀ l : List α, (∀ c ∈ l, p c = true) → l.takeWhile p = l := by
  intro l h
  induction l with
  | nil => rfl
  | cons c t ih =>
    rw [List.takeWhile_cons, h c (List.mem_cons_self c t)]
    simp [ih (fun x hx => h x (List.mem_cons_of_mem c hx))]

theorem dropWhile_all {α : Type} {p : α → Bool} :
    ∀ l : List α, (∀ c ∈ l, p c = true) → l.dropWhile p = [] := by
  intro l h
  induction l with
  | nil => rfl
  | cons c t ih =>
    rw [List.dropWhile_cons, h c (List.mem_cons_self c t)]
    simp [ih (fun x hx => h x (List.mem_cons_of_mem c hx))]

/-! ## `strtol` / `std::stoi` / `std::stoll`

`strtol(s, &end, 10)` skips C-locale whitespace, accepts an optional sign and
a maximal digit run; `end` is left at the first unconsumed character, and at
the start of the string when no digits were consumed.  `std::stoi`/`std::stoll`
throw `std::invalid_argument` when no digits were consumed and
`std::out_of_range` when the value does not fit the result type (trailing
characters are not an error for them). -/

/-- Strip one optional leading sign character, as `strtol`/`strtod` do. -/
def stripSign (l : List Char) : List Char :=
  if l.head? = some '-' || l.head? = some '+' then l.tail else l

/-- Common model of `std::stoi` (with `int` bounds) and `std::stoll` (with
`long long` bounds); `.error` stands for the thrown exception. -/
def strtoInt_m (lo hi : Int) (s : String) : Except Unit Int :=
  let l := s.data.dropWhile isCSpace
  let sgnNeg : Bool := l.head? = some '-'
  let l2 := stripSign l
  let ds := l2.takeWhile isDigitCh
  if ds.isEmpty then .error () else
    let v : Int := if sgnNeg then -(digitsVal ds : Int) else (digitsVal ds : Int)
    if v < lo || hi < v then .error () else .ok v

/-- Model of `std::stoi`. -/
def stoi_m : String → Except Unit Int := strtoInt_m (-2147483648) 2147483647

/-- Model of `std::stoll`. -/
def stoll_m : String → Except Unit Int :=
  strtoInt_m (-9223372036854775808) 9223372036854775807

/-- The integer validator of the registry (`validate_integer` /
`is_integer` in `inline_query.cpp`): `strtol` must consume at least one digit
and the whole string. -/
def validate_integer (s : String) : Bool :=
  if s = "" then false else
    let l2 := stripSign (s.data.dropWhile isCSpace)
    !(l2.takeWhile isDigitCh).isEmpty && (l2.dropWhile isDigitCh).isEmpty

/-- The output of `toDecString` starts with a minus sign or a digit, never whitespace. -/
theorem dropWhile_isCSpace_toDecString (v : Int) :
    (toDecString v).data.dropWhile isCSpace = (toDecString v).data := by
  unfold toDecString
  by_cases h : v < 0
  · simp only [if_pos h]
    rw [List.dropWhile_cons]
    simp [isCSpace]
  · simp only [if_neg h]
    match hd : natDigits v.natAbs with
    | [] => exact absurd hd (natDigits_ne_nil _)
    | c :: t =>
      have hc : isDigitCh c = true :=
        natDigits_all_digits _ c (by rw [hd]; exact List.mem_cons_self c t)
      rw [List.dropWhile_cons, not_isCSpace_of_isDigitCh hc]
      simp


/-- Parsing the printed decimal form returns the value. -/
theorem strtoInt_m_toDecString (lo hi v : Int) (h1 : lo ≤ v) (h2 : v ≤ hi) :
    strtoInt_m lo hi (toDecString v) = .ok v := by
  simp only [strtoInt_m]
  rw [dropWhile_isCSpace_toDecString]
  have hall := natDigits_all_digits v.natAbs
  have htake := takeWhile_all (p := isDigitCh) (natDigits v.natAbs) hall
  have hne := natDigits_ne_nil v.natAbs
  by_cases h : v < 0
  · have hdata : (toDecString v).data = '-' :: natDigits v.natAbs := by
      unfold toDecString; rw [if_pos h]
    rw [hdata]
    have hstrip : stripSign ('-' :: natDigits v.natAbs) = natDigits v.natAbs := by
      unfold stripSign; simp
    rw [hstrip, htake]
    rw [if_neg (by simpa [List.isEmpty_iff] using hne)]
    rw [digitsVal_natDigits]
    have habs : (v.natAbs : Int) = -v := by omega
    simp only [List.head?_cons, habs]
    norm_num
    intro hcon
    rcases hcon with hc | hc <;> omega
  · have hdata : (toDecString v).data = natDigits v.natAbs := by
      unfold toDecString; rw [if_neg h]
    rw [hdata]
    match hd : natDigits v.natAbs with
    | [] => exact absurd hd hne
    | c :: t =>
      have hc : isDigitCh c = true :=
        hall c (by rw [hd]; exact List.mem_cons_self c t)
      have hcm : ¬ c = '-' := by
        intro hcon; subst hcon; simp [isDigitCh] at hc
      have hcp : ¬ c = '+' := by
        intro hcon; subst hcon; simp [isDigitCh] at hc
      have hstrip : stripSign (c :: t) = c :: t := by
        unfold stripSign
        rw [if_neg]
        simp only [List.head?_cons, Bool.or_eq_true, decide_eq_true_eq]
        push_neg
        exact ⟨fun hcon => hcm (Option.some.inj hcon),
               fun hcon => hcp (Option.some.inj hcon)⟩
      have htake2 : List.takeWhile isDigitCh (c :: t) = c :: t := by
        rw [← hd]; exact htake
      have hvalnat : digitsVal (c :: t) = v.natAbs := by
        rw [← hd, digitsVal_natDigits]
      have habs : (v.natAbs : Int) = v := by omega
      have hsgn : (decide ((c :: t).head? = some '-')) = false := by
        simp only [List.head?_cons, decide_eq_false_iff_not]
        exact fun hcon => hcm (Option.some.inj hcon)
      rw [hstrip, htake2]
      rw [if_neg (by simp)]
      rw [hsgn]
      simp only [Bool.false_eq_true, if_false, hvalnat]
      split
      · next hcon =>
        exfalso
        simp only [Bool.or_eq_true, decide_eq_true_eq] at hcon
        omega
      · rw [habs]

/-- The `std::stoi` model round-trips `std::to_string` on `int`-range values. -/
theorem stoi_m_toDecString (v : Int)
    (h1 : -2147483648 ≤ v) (h2 : v ≤ 2147483647) :
    stoi_m (toDecString v) = .ok v := strtoInt_m_toDecString _ _ v h1 h2

/-- The `std::stoll` model round-trips `std::to_string` on `long long`-range values. -/
theorem stoll_m_toDecString (v : Int)
    (h1 : -9223372036854775808 ≤ v) (h2 : v ≤ 9223372036854775807) :
    stoll_m (toDecString v) = .ok v := strtoInt_m_toDecString _ _ v h1 h2

/-! ## `strtod` (used by the float validator and by `std::stof`/`std::stod`)

`strtod` skips C-locale whitespace and an optional sign, then consumes the
longest prefix that is a decimal floating literal (`digits [. digits]` or
`. digits`, with an optional well-formed exponent), a hexadecimal literal, or
`inf`/`infinity`/`nan` (case-insensitive).  We model the characters it
consumes; a value-level model of binary rounding is not needed by any claim. -/

/-- Case-insensitive literal prefix match; returns the rest on success. -/
def matchCI : List Char → List Char → Option (List Char)
  | [], l => some l
  | _ :: _, [] => none
  | p :: ps, c :: cs => if toLowerCh c = p then matchCI ps cs else none

/-- Optional `nan(...)` payload. -/
def nanPayloadTail (l : List Char) : List Char :=
  match l with
  | '(' :: rest =>
    match rest.dropWhile (fun c => isWordCh c) with
    | ')' :: r2 => r2
    | _ => l
  | _ => l

/-- Consume a decimal exponent `([eE][+-]?digits)` (or a `p` exponent for hex
literals); if the digits are missing the marker is not consumed at all. -/
def expTail (emarks : List Char) (l : List Char) : List Char :=
  match l with
  | c :: rest =>
    if toLowerCh c ∈ emarks then
      let rest2 := stripSign rest
      if (rest2.takeWhile isDigitCh).isEmpty then l
      else rest2.dropWhile isDigitCh
    else l
  | [] => []

/-- Consume a digit run with one optional embedded point; `none` when no
digit was seen (no conversion). -/
def mantissaTail (dig : Char → Bool) (l : List Char) : Option (List Char) :=
  let d1 := l.takeWhile dig
  let r1 := l.dropWhile dig
  match r1 with
  | '.' :: rest =>
    let d2 := rest.takeWhile dig
    if d1.isEmpty && d2.isEmpty then none else some (rest.dropWhile dig)
  | _ => if d1.isEmpty then none else some r1

/-- Characters left unconsumed by `strtod`, or `none` when it performs no
conversion at all. -/
def strtodTail (s : String) : Option (List Char) :=
  let l := s.data.dropWhile isCSpace
  let l2 := stripSign l
  match matchCI "infinity".data l2 with
  | some r => some r
  | none =>
  match matchCI "inf".data l2 with
  | some r => some r
  | none =>
  match matchCI "nan".data l2 with
  | some r => some (nanPayloadTail r)
  | none =>
  match l2 with
  | '0' :: x :: rest =>
    if (x = 'x' || x = 'X') && ((rest.takeWhile isHexCh) ≠ [] ||
        (match rest with | '.' :: r2 => (r2.takeWhile isHexCh) ≠ [] | _ => false)) then
      (mantissaTail isHexCh rest).map (expTail ['p'])
    else
      (mantissaTail isDigitCh l2).map (expTail ['e'])
  | _ => (mantissaTail isDigitCh l2).map (expTail ['e'])

/-- The float validator of the registry (`validate_float` / `is_float` in
`inline_query.cpp`): `strtod` must consume something, and the whole string. -/
def validate_float (s : String) : Bool :=
  if s = "" then false else
    match strtodTail s with
    | some [] => true
    | _ => false

/-! ## The remaining validators of `inline_query.cpp` -/

/-- Model of `validate_boolean` / `is_boolean`: case-insensitive
`true`/`false`/`1`/`0`. -/
def validate_boolean (s : String) : Bool :=
  let lower := toLowerStr s
  lower = "true" || lower = "false" || lower = "1" || lower = "0"

/-- Regex `\d{4}-\d{2}-\d{2}` (`is_date` / `validate_date`). -/
def is_date (s : String) : Bool :=
  match s.data with
  | [a, b, c, d, '-', e, f, '-', g, h] => [a, b, c, d, e, f, g, h].all isDigitCh
  | _ => false

/-- Optional regex fragment `(\.\d+)?`. -/
def optFrac (l : List Char) : Bool :=
  match l with
  | [] => true
  | '.' :: ds => !ds.isEmpty && ds.all isDigitCh
  | _ => false

/-- Regex `\d{4}-\d{2}-\d{2}[T ]\d{2}:\d{2}:\d{2}(\.\d+)?`
(`is_datetime` / `validate_datetime`). -/
def is_datetime (s : String) : Bool :=
  match s.data with
  | a :: b :: c :: d :: '-' :: e :: f :: '-' :: g :: h :: sep :: i :: j :: ':'
      :: k :: l :: ':' :: m :: n :: rest =>
    [a, b, c, d, e, f, g, h, i, j, k, l, m, n].all isDigitCh &&
    (sep = 'T' || sep = ' ') && optFrac rest
  | _ => false

/-- Regex `\d{2}:\d{2}:\d{2}(\.\d+)?` (`is_time`). -/
def is_time (s : String) : Bool :=
  match s.data with
  | a :: b :: ':' :: c :: d :: ':' :: e :: f :: rest =>
    [a, b, c, d, e, f].all isDigitCh && optFrac rest
  | _ => false

/-- Regex `\d{4}\.\d{2}\.\d{2}D\d{2}:\d{2}:\d{2}\.\d{9}` (`is_timestamp`). -/
def is_timestamp (s : String) : Bool :=
  match s.data with
  | [a, b, c, d, '.', e, f, '.', g, h, 'D', i, j, ':', k, l, ':', m, n, '.',
     o1, o2, o3, o4, o5, o6, o7, o8, o9] =>
    [a, b, c, d, e, f, g, h, i, j, k, l, m, n,
     o1, o2, o3, o4, o5, o6, o7, o8, o9].all isDigitCh
  | _ => false

/-- Regex `\d{4}\.\d{2}m` (`is_month`). -/
def is_month (s : String) : Bool :=
  match s.data with
  | [a, b, c, d, '.', e, f, 'm'] => [a, b, c, d, e, f].all isDigitCh
  | _ => false

/-- Regex `\d+D\d{2}:\d{2}:\d{2}\.\d{9}` (`is_timespan`). -/
def is_timespan (s : String) : Bool :=
  let days := s.data.takeWhile isDigitCh
  !days.isEmpty &&
  match s.data.dropWhile isDigitCh with
  | ['D', i, j, ':', k, l, ':', m, n, '.', o1, o2, o3, o4, o5, o6, o7, o8, o9] =>
    [i, j, k, l, m, n, o1, o2, o3, o4, o5, o6, o7, o8, o9].all isDigitCh
  | _ => false

/-- Regex `\d{2}:\d{2}` (`is_minute`). -/
def is_minute (s : String) : Bool :=
  match s.data with
  | [a, b, ':', c, d] => [a, b, c, d].all isDigitCh
  | _ => false

/-- Regex `\d{2}:\d{2}:\d{2}` (`is_second`). -/
def is_second (s : String) : Bool :=
  match s.data with
  | [a, b, ':', c, d, ':', e, f] => [a, b, c, d, e, f].all isDigitCh
  | _ => false

/-- Length-1 validator used for the byte and char types. -/
def validate_len1 (s : String) : Bool := s.data.length = 1

/-! ## kdb+ wire-type codes and null sentinels (from `k.h`) -/

def KB : Int := 1
def KG : Int := 4
def KH : Int := 5
def KI : Int := 6
def KJ : Int := 7
def KE : Int := 8
def KF : Int := 9
def KC : Int := 10
def KS : Int := 11
def KP : Int := 12
def KM : Int := 13
def KD : Int := 14
def KZ : Int := 15
def KN : Int := 16
def KU : Int := 17
def KV : Int := 18
def KT : Int := 19
def XT : Int := 98
def XD : Int := 99

/-- kdb+ null short (`nh`, the minimum `short`). -/
def nullH : Int := -32768
/-- kdb+ null int (`ni`, the minimum `int`). -/
def nullI : Int := -2147483648
/-- kdb+ null long (`nj`, the minimum `long long`). -/
def nullJ : Int := -9223372036854775808

/-! ## Doubles

`double` cells (real, float, datetime) are modelled as either NaN or an exact
rational; binary rounding is abstracted away (no claim depends on it).  IEEE
`==` is false whenever either side is NaN — this matters for the datetime
null check in the source. -/

inductive DblM where
  | nan : DblM
  | fin : ℚ → DblM
deriving DecidableEq

/-- IEEE `==` on doubles: NaN compares unequal to everything. -/
def dblEq : DblM → DblM → Bool
  | .nan, _ => false
  | _, .nan => false
  | .fin a, .fin b => a = b

/-- C truncation-toward-zero of a double to an integer; applying it to NaN is
undefined behaviour in C, modelled as 0. -/
def dblTrunc : DblM → Int
  | .nan => 0
  | .fin q => if 0 ≤ q then ⌊q⌋ else ⌈q⌉

/-- Multiply a double by an integer constant. -/
def dblScale (k : Int) : DblM → DblM
  | .nan => .nan
  | .fin q => .fin (q * k)

/-! ## Civil-calendar conversions (model of `gmtime`/`strftime` and of the
`mktime`-based parsers; the parsers in the source use `mktime` and therefore
depend on the process time zone — we model the UTC interpretation). -/

/-- Days since 1970-01-01 to (year, month, day), Gregorian calendar. -/
def civilFromDays (z0 : Int) : Int × Int × Int :=
  let z := z0 + 719468
  let era := z / 146097
  let doe := z - era * 146097
  let yoe := (doe - doe / 1460 + doe / 36524 - doe / 146096) / 365
  let y := yoe + era * 400
  let doy := doe - (365 * yoe + yoe / 4 - yoe / 100)
  let mp := (5 * doy + 2) / 153
  let d := doy - (153 * mp + 2) / 5 + 1
  let m := mp + (if mp < 10 then 3 else -9)
  (y + (if m ≤ 2 then 1 else 0), m, d)

/-- Conversion from (year, month, day) to days since 1970-01-01, Gregorian calendar. -/
def daysFromCivil (y m d : Int) : Int :=
  let y' := y - (if m ≤ 2 then 1 else 0)
  let era := y' / 400
  let yoe := y' - era * 400
  let mp := m + (if 2 < m then -3 else 9)
  let doy := (153 * mp + 2) / 5 + d - 1
  let doe := yoe * 365 + yoe / 4 - yoe / 100 + doy
  era * 146097 + doe - 719468

/-- Unpadded decimal of a nonnegative quantity (as `%Y` prints years in the
relevant range) or padded to two digits (`%m`, `%d`, `%H`, `%M`, `%S`,
`std::setw(2)` with fill `'0'`). -/
def pad2 (v : Int) : String :=
  if 0 ≤ v && v < 10 then "0" ++ toDecString v else toDecString v

/-- Model of `strftime "%Y-%m-%d"` of a day count since 1970-01-01. -/
def renderDate (days : Int) : String :=
  match civilFromDays days with
  | (y, m, d) => toDecString y ++ "-" ++ pad2 m ++ "-" ++ pad2 d

/-- Model of `strftime "%Y-%m-%d %H:%M:%S"` of a second count since 1970-01-01. -/
def renderDateTime (secs : Int) : String :=
  let days := secs / 86400
  let sod := secs % 86400
  renderDate days ++ " " ++ pad2 (sod / 3600) ++ ":" ++
    pad2 ((sod % 3600) / 60) ++ ":" ++ pad2 (sod % 60)

/-- Model of `std::get_time` numeric field: up to `w` digits, at least one. -/
def getTimeNum (w : Nat) (l : List Char) : Option (Nat × List Char) :=
  let ds := (l.takeWhile isDigitCh).take w
  if ds.isEmpty then none else some (digitsVal ds, l.drop ds.length)

/-- Model of `std::get_time` with format `"%Y-%m-%d"` followed by `mktime` (UTC model)
and the kdb+ epoch shift: `detail::parse_date` in `inline_query.cpp`.
Returns the day offset from 2000-01-01, or null int on failure. -/
def parse_date (s : String) : Int :=
  match getTimeNum 4 s.data with
  | none => nullI
  | some (y, r1) =>
  match r1 with
  | '-' :: r2 =>
    match getTimeNum 2 r2 with
    | none => nullI
    | some (m, r3) =>
    match r3 with
    | '-' :: r4 =>
      match getTimeNum 2 r4 with
      | none => nullI
      | some (d, _) => daysFromCivil y m d - 10957
    | _ => nullI
  | _ => nullI

/-- The literal `':'` separators of a `std::get_time` format string. -/
def expectColon : List Char → Option (List Char)
  | ':' :: r => some r
  | _ => none

/-- Model of `detail::parse_time`: `"%H:%M:%S"` to milliseconds, or null int. -/
def parse_time (s : String) : Int :=
  match (getTimeNum 2 s.data).bind (fun hr =>
      (expectColon hr.2).bind (fun r2 =>
      (getTimeNum 2 r2).bind (fun mr =>
      (expectColon mr.2).bind (fun r4 =>
      (getTimeNum 2 r4).map (fun sr =>
        ((hr.1 : Int) * 3600 + mr.1 * 60 + sr.1) * 1000))))) with
  | some v => v
  | none => nullI

/-- Model of `detail::parse_datetime`: `"%Y-%m-%d %H:%M:%S"` to fractional days from
2000-01-01 (a double), or null float (NaN). -/
def parse_datetime (s : String) : DblM :=
  match getTimeNum 4 s.data with
  | none => .nan
  | some (y, r1) =>
  match r1 with
  | '-' :: r2 =>
    match getTimeNum 2 r2 with
    | none => .nan
    | some (mo, r3) =>
    match r3 with
    | '-' :: r4 =>
      match getTimeNum 2 r4 with
      | none => .nan
      | some (d, r5) =>
      match r5 with
      | ' ' :: r6 =>
        match getTimeNum 2 r6 with
        | none => .nan
        | some (h, r7) =>
        match r7 with
        | ':' :: r8 =>
          match getTimeNum 2 r8 with
          | none => .nan
          | some (mi, r9) =>
          match r9 with
          | ':' :: r10 =>
            match getTimeNum 2 r10 with
            | none => .nan
            | some (sec, _) =>
              let secs : Int := daysFromCivil y mo d * 86400 +
                h * 3600 + mi * 60 + sec
              .fin (((secs - 946684800 : Int) : ℚ) / 86400)
          | _ => .nan
        | _ => .nan
      | _ => .nan
    | _ => .nan
  | _ => .nan

/-! ## Column cells and the extended type map (`createExtendedTypeMap`)

One constructor per registered type; the payload is the raw cell content the
C++ assigners and formatters read and write. -/

inductive Cell where
  | cb : Nat → Cell            -- boolean column (G cell, 0/1)
  | cg : Nat → Cell            -- byte (G cell, 0..255)
  | ch : Int → Cell            -- short (H cell)
  | ci : Int → Cell            -- int (I cell)
  | cj : Int → Cell            -- long (J cell)
  | ce : DblM → Cell           -- real (E cell)
  | cf : DblM → Cell           -- float (F cell)
  | cc : Char → Cell           -- char (C cell)
  | cd : Int → Cell            -- date (I cell, days from 2000-01-01)
  | cz : DblM → Cell           -- datetime (F cell, days from 2000-01-01)
  | ct : Int → Cell            -- time (I cell, milliseconds)
  | cs : Option String → Cell  -- symbol (S cell, null = nullptr)
deriving DecidableEq

/-- The single-character keys of the extended type map. -/
inductive TKey where
  | b | g | h | i | j | e | f | c | d | z | t | s
deriving DecidableEq

/-- Model of `TypeInfo::kdb_type` of each registry entry. -/
def kdbTypeOf : TKey → Int
  | .b => KB | .g => KG | .h => KH | .i => KI | .j => KJ | .e => KE
  | .f => KF | .c => KC | .d => KD | .z => KZ | .t => KT | .s => KS

/-- Model of `TypeInfo::validator` of each registry entry (the symbol entry has a null
validator: symbols accept any string). -/
def validatorOf : TKey → Option (String → Bool)
  | .b => some validate_boolean
  | .g => some validate_len1
  | .h => some validate_integer
  | .i => some validate_integer
  | .j => some validate_integer
  | .e => some validate_float
  | .f => some validate_float
  | .c => some validate_len1
  | .d => some is_date
  | .z => some is_datetime
  | .t => some is_time
  | .s => none

/-- Model of `TypeInfo::null_assigner`: the null sentinel each entry writes. -/
def nullCell : TKey → Cell
  | .b => .cb 0
  | .g => .cg 0
  | .h => .ch nullH
  | .i => .ci nullI
  | .j => .cj nullJ
  | .e => .ce .nan
  | .f => .cf .nan
  | .c => .cc ' '
  | .d => .cd nullI
  | .z => .cz .nan
  | .t => .ct nullI
  | .s => .cs none

/-- The permissive TRUE set of the boolean value assigner. -/
def boolTrueSet : List String := ["true", "1", "t", "yes", "y"]

/-- Boolean value assigner: trim, lower-case, test against the TRUE set. -/
def parse_bool (v : String) : Nat :=
  let lower := toLowerStr (trimChars [' ', '\n', '\r', '\t'] v)
  if lower ∈ boolTrueSet then 1 else 0

/-- Model of `v[0]` of a `std::string` (the index-`size()` access yields `'\0'`). -/
def strHead (v : String) : Char := v.data.headD (Char.ofNat 0)

/-- Wrap to `short` range, the effect of `static_cast<H>` on an `int`. -/
def wrap16 (v : Int) : Int := (v + 32768) % 65536 - 32768

/-- Decimal value of the literal consumed by `strtod`, exact for finite
decimal literals; hexadecimal literals, infinities and NaNs are mapped to the
non-finite case (their numeric values play no role in any claim). -/
def strtodVal (s : String) : DblM :=
  let l2 := stripSign (s.data.dropWhile isCSpace)
  let neg : Bool := (s.data.dropWhile isCSpace).head? = some '-'
  let d1 := l2.takeWhile isDigitCh
  let r1 := l2.dropWhile isDigitCh
  let (d2, r2) : List Char × List Char :=
    match r1 with
    | '.' :: rest => (rest.takeWhile isDigitCh, rest.dropWhile isDigitCh)
    | _ => ([], r1)
  if d1.isEmpty && d2.isEmpty then .nan
  else
    let mant : ℚ := (digitsVal d1 : ℚ) + (digitsVal d2 : ℚ) / ((10 : ℚ) ^ d2.length)
    let e : Int :=
      match r2 with
      | c :: rest =>
        if toLowerCh c = 'e' then
          let negE : Bool := rest.head? = some '-'
          let ds := (stripSign rest).takeWhile isDigitCh
          if ds.isEmpty then 0
          else if negE then -(digitsVal ds : Int) else (digitsVal ds : Int)
        else 0
      | [] => 0
    .fin ((if neg then -mant else mant) * (10 : ℚ) ^ e)

/-- Model of `std::stof`/`std::stod`: throw when `strtod` makes no conversion. -/
def stod_m (s : String) : Except Unit DblM :=
  match strtodTail s with
  | none => .error ()
  | some _ => .ok (strtodVal s)

/-- Model of `TypeInfo::value_assigner` of each registry entry; `.error` models a
thrown exception (only the `std::stoi`/`stoll`/`stof`/`stod` based entries
can throw). -/
def value_assigner : TKey → String → Except Unit Cell
  | .b, v => .ok (.cb (parse_bool v))
  | .g, v => .ok (.cg ((strHead v).toNat % 256))
  | .h, v => (stoi_m v).map (fun n => .ch (wrap16 n))
  | .i, v => (stoi_m v).map .ci
  | .j, v => (stoll_m v).map .cj
  | .e, v => (stod_m v).map .ce
  | .f, v => (stod_m v).map .cf
  | .c, v => .ok (.cc (if v = "" then ' ' else strHead v))
  | .d, v => .ok (.cd (parse_date v))
  | .z, v => .ok (.cz (parse_datetime v))
  | .t, v => .ok (.ct (parse_time v))
  | .s, v => .ok (.cs (some v))

/-! Formatters (`TypeInfo::formatter`). -/

/-- Fixed 7-digit rendering of a double (`std::fixed`,
`std::setprecision(7)`); NaN prints as `nan`, rounding of the binary value is
abstracted to rounding of the exact rational (half away from zero). -/
def formatFixed7 (v : DblM) : String :=
  match v with
  | .nan => "nan"
  | .fin q =>
    let scaled : Int := ⌊|q| * 10000000 + 1/2⌋
    (if q < 0 then "-" else "") ++ toDecString (scaled / 10000000) ++ "." ++
      (let frac := (scaled % 10000000).toNat
       let ds := natDigits frac
       String.mk (List.replicate (7 - ds.length) '0') ++ String.mk ds)

def format_b (v : Nat) : String := if v ≠ 0 then "true" else "false"

def format_g (v : Nat) : String := toDecString v

def format_h (v : Int) : String := toDecString v

def format_i (v : Int) : String := toDecString v

def format_j (v : Int) : String := toDecString v

def format_e (v : DblM) : String := formatFixed7 v

def format_f (v : DblM) : String := formatFixed7 v

def format_c (v : Char) : String := String.mk [v]

/-- Date formatter: null check against `ni`, then `gmtime`/`strftime`
(`%Y-%m-%d`) of `days * 86400 + 946684800` seconds. -/
def format_d (v : Int) : String :=
  if v = nullI then "NULL" else renderDate (v + 10957)

/-- Datetime formatter.  The source checks `days == nf` — an IEEE comparison
with NaN, which is false even when `days` is NaN, so the `"NULL"` branch is
dead; a NaN then flows into the `time_t` cast (undefined behaviour, modelled
as 0 by `dblTrunc`). -/
def format_z (v : DblM) : String :=
  if dblEq v .nan then "NULL"
  else renderDateTime (dblTrunc (dblScale 86400 v) + 946684800)

/-- Time formatter: null check against `ni`, then `HH:MM:SS` — the
millisecond remainder is discarded. -/
def format_t (v : Int) : String :=
  if v = nullI then "NULL"
  else
    let ts := v.tdiv 1000
    pad2 (ts.tdiv 3600) ++ ":" ++ pad2 ((ts.tmod 3600).tdiv 60) ++ ":" ++
      pad2 (ts.tmod 60)

def format_s (v : Option String) : String := v.getD ""

/-- Formatter dispatch over a cell (the C++ formatter reads the raw cell of
its own column type; other combinations cannot occur). -/
def formatCell : TKey → Cell → String
  | .b, .cb v => format_b v
  | .g, .cg v => format_g v
  | .h, .ch v => format_h v
  | .i, .ci v => format_i v
  | .j, .cj v => format_j v
  | .e, .ce v => format_e v
  | .f, .cf v => format_f v
  | .c, .cc v => format_c v
  | .d, .cd v => format_d v
  | .z, .cz v => format_z v
  | .t, .ct v => format_t v
  | .s, .cs v => format_s v
  | _, _ => ""

/-! ## `assign_value` and `assign_null_value` (`inline_query.cpp`) -/

/-- Model of `assign_null_value`: write the type's null sentinel. -/
def assign_null_value (k : TKey) : Cell := nullCell k

/-- Model of `assign_value`: empty text assigns the null sentinel; otherwise the value
assigner runs inside `try { ... } catch (...)` and any exception also assigns
the null sentinel.  The function itself always returns normally. -/
def assign_value (k : TKey) (v : String) : Cell :=
  if v = "" then assign_null_value k
  else
    match value_assigner k v with
    | .ok c => c
    | .error _ => assign_null_value k

/-! ## `infer_column_type` (`inline_query.cpp`) -/

/-- The single-character key strings under which `createExtendedTypeMap`
registers its entries. -/
def keyOfStr (s : String) : Option TKey :=
  if s = "b" then some .b else if s = "g" then some .g
  else if s = "h" then some .h else if s = "i" then some .i
  else if s = "j" then some .j else if s = "e" then some .e
  else if s = "f" then some .f else if s = "c" then some .c
  else if s = "d" then some .d else if s = "z" then some .z
  else if s = "t" then some .t else if s = "s" then some .s
  else none

/-- The priority vector of `infer_column_type`; the keys `p m n u v`
(timestamp, month, timespan, minute, second) are not registered in the
extended type map. -/
def type_priority : List String :=
  ["b", "i", "j", "f", "d", "z", "t", "p", "m", "n", "u", "v", "s"]

/-- Final value of `type_validity[key]`: initialised `true` for registered
keys, conjoined with the validator over every non-empty sample (entries with
a null validator are never updated); unregistered keys are default-inserted
`false` by the lookup in the return loop. -/
def type_validity (key : String) (data : List String) : Bool :=
  match keyOfStr key with
  | some k =>
    match validatorOf k with
    | none => true
    | some f => (data.filter (· ≠ "")).all f
  | none => false

/-- Model of `infer_column_type`: first priority key whose validity flag survived, if
any sample is non-empty; `type_map["s"].kdb_type` (symbol) otherwise. -/
def infer_column_type (data : List String) : Int :=
  let has_non_empty := data.any (· ≠ "")
  match type_priority.find? (fun ts => type_validity ts data && has_non_empty) with
  | some ts => ((keyOfStr ts).map kdbTypeOf).getD 0
  | none => kdbTypeOf .s

/-! ## `QueryBuilder` (`print_result.cpp`): index queries -/

/-- Model of `QueryBuilder::format_indices`: empty list yields the default text, a
non-empty list is accumulated into a parenthesised `;`-separated list. -/
def format_indices (indices : List Int) (default : String) : String :=
  match indices with
  | [] => default
  | i :: rest =>
    "(" ++ rest.foldl (fun a b => a ++ ";" ++ toDecString b) (toDecString i) ++ ")"

/-- Model of `QueryBuilder::build_iloc_query`. -/
def build_iloc_query (table_name : String) (rows cols : List Int) : String :=
  "(0!" ++ table_name ++ ")[" ++
    format_indices rows ("til count " ++ table_name) ++
    ";(cols " ++ table_name ++ ")[" ++
    format_indices cols ("til count cols " ++ table_name) ++ "]]"

/-- Claim-side rendering: the indices in order, `;`-separated. -/
def semiSepIndices : List Int → String
  | [] => ""
  | [i] => toDecString i
  | i :: rest => toDecString i ++ ";" ++ semiSepIndices rest

/-! ## `QueryBuilder` (`print_result.cpp`): condition queries -/

structure ColumnMeta where
  name : String
  type_code : Int
deriving DecidableEq

/-- Model of `QueryBuilder::needs_evaluation`: the expression contains an arithmetic
operator or a parenthesis. -/
def needs_evaluation (expr : String) : Bool :=
  expr.data.any (fun c => c ∈ ['+', '-', '*', '/', '(', ')'])

/-- Model of `QueryBuilder::evaluate_expression`: compound expressions are
parenthesised and left for the engine to evaluate, simple ones pass through
(the `metadata` parameter of the C++ function is unused). -/
def evaluate_expression (expr : String) : String :=
  if needs_evaluation expr then "(" ++ expr ++ ")" else expr

/-- The operator map of `build_loc_query` (`valid_ops`). -/
def valid_ops (op : String) : Option String :=
  if op = ">" then some ">" else if op = "<" then some "<"
  else if op = ">=" then some ">=" else if op = "<=" then some "<="
  else if op = "==" then some "=" else if op = "=" then some "="
  else if op = "!=" then some "<>" else if op = "like" then some "like"
  else if op = "~" then some "~" else none

/-- The symbol-literal test of `process_condition`: the left-hand side equals
the name of a metadata column (first match of `find_if`) whose type code is
`KS`, and the right-hand side needs no evaluation. -/
def symbolRhsCase (metadata : List ColumnMeta) (lhs rhs : String) : Bool :=
  (match metadata.find? (fun m => m.name = lhs) with
   | some m => m.type_code = KS
   | none => false) && !needs_evaluation rhs

/-- Model of `QueryBuilder::process_condition` on the captured `lhs`/`op`/`rhs`;
`.error` models the thrown `std::invalid_argument` (invalid operator). -/
inductive LocErr where
  | invalidCondition
deriving DecidableEq

def process_condition (metadata : List ColumnMeta)
    (lhs op rhs current_query : String) : Except LocErr String :=
  match valid_ops op with
  | none => .error .invalidCondition
  | some mop =>
    let evaluated_lhs := evaluate_expression lhs
    let evaluated_rhs :=
      if symbolRhsCase metadata lhs rhs then "`" ++ rhs
      else evaluate_expression rhs
    .ok ("(0!select from (" ++ current_query ++ ") where " ++ evaluated_lhs ++
         " " ++ mop ++ " " ++ evaluated_rhs ++ ")")

/-! ### The condition regex of `build_loc_query`

```
^\s*(EXPR)\s*([><=!~]{1,2}|like)\s*(EXPR)\s*$
EXPR  ::= TERM (\s* [+\-*/] \s* TERM)*
TERM  ::= [a-zA-Z][a-zA-Z0-9_]*(\([^)]*\))?  |  -?\d*\.?\d+
        |  \( \s* [\w\s+\-*/()]+ \s* \)
```

The match predicate is modelled by enumerating decompositions (a backtracking
regex matches exactly when some decomposition exists).  No term of `EXPR` can
begin or end with whitespace or contain a top-level operator character, so
the `(lhs, op, rhs)` decomposition is unique on every input a claim
exercises; `(conditionSplits s).head?` models the captured groups. -/

/-- Model of `[a-zA-Z][a-zA-Z0-9_]*(\([^)]*\))?` as a whole-token test. -/
def isIdentCallTok (l : List Char) : Bool :=
  match l with
  | [] => false
  | c :: rest =>
    isAlphaCh c &&
    (let rest2 := rest.dropWhile isWordCh
     match rest2 with
     | [] => true
     | '(' :: rest3 =>
       (match rest3.reverse with
        | ')' :: bodyRev => bodyRev.all (fun x => !(x = ')'))
        | _ => false)
     | _ => false)

/-- Model of `-?\d*\.?\d+` as a whole-token test. -/
def isNumberTok (l : List Char) : Bool :=
  let l' := if l.head? = some '-' then l.tail else l
  match l'.dropWhile isDigitCh with
  | [] => !l'.isEmpty
  | '.' :: frac => !frac.isEmpty && frac.all isDigitCh
  | _ => false

/-- The character class `[\w\s+\-*/()]`. -/
def isParenBodyCh (c : Char) : Bool :=
  isWordCh c || isCSpace c || c ∈ ['+', '-', '*', '/', '(', ')']

/-- Model of `\(\s*[\w\s+\-*/()]+\s*\)` as a whole-token test (the body class
contains `\s`, so the two inner `\s*` are absorbed by the `+`). -/
def isParenTok (l : List Char) : Bool :=
  match l with
  | '(' :: rest =>
    (match rest.reverse with
     | ')' :: bodyRev => !bodyRev.isEmpty && bodyRev.all isParenBodyCh
     | _ => false)
  | _ => false

def isTermTok (l : List Char) : Bool :=
  isIdentCallTok l || isNumberTok l || isParenTok l

def isArithCh (c : Char) : Bool := c ∈ ['+', '-', '*', '/']

/-- Model of `EXPR` as a whole-token test, by fuel-bounded decomposition search (each
step consumes at least one term character, so `length + 1` fuel suffices). -/
def isExprSuffix : Nat → List Char → Bool
  | 0, _ => false
  | fuel + 1, l =>
    (List.range l.length).any (fun k =>
      isTermTok (l.take (k + 1)) &&
      (let rest := l.drop (k + 1)
       rest.isEmpty ||
       (let r2 := rest.dropWhile isCSpace
        match r2 with
        | c :: r3 => isArithCh c && isExprSuffix fuel (r3.dropWhile isCSpace)
        | [] => false)))

def isExprTok (l : List Char) : Bool := isExprSuffix (l.length + 1) l

/-- Model of `[><=!~]{1,2}|like` as a whole-token test. -/
def isOpTok (l : List Char) : Bool :=
  ((l.length = 1 || l.length = 2) &&
    l.all (fun c => c ∈ ['>', '<', '=', '!', '~'])) ||
  l = ['l', 'i', 'k', 'e']

structure CondTriple where
  lhs : String
  op : String
  rhs : String
deriving DecidableEq

/-- All `(lhs, op, rhs)` decompositions witnessing a match of the condition
regex (captured groups exclude the surrounding whitespace). -/
def conditionSplits (s : String) : List CondTriple :=
  let l1 := s.data.dropWhile isCSpace
  (List.range l1.length).flatMap (fun i =>
    let e1 := l1.take (i + 1)
    if isExprTok e1 then
      let r := (l1.drop (i + 1)).dropWhile isCSpace
      (List.range r.length).filterMap (fun j =>
        let op := r.take (j + 1)
        if isOpTok op then
          let e2ws := (r.drop (j + 1)).dropWhile isCSpace
          let e2 := (e2ws.reverse.dropWhile isCSpace).reverse
          if isExprTok e2 then some ⟨⟨e1⟩, ⟨op⟩, ⟨e2⟩⟩ else none
        else none)
    else [])

/-- The captured groups of a successful regex match. -/
def capturedCondition (cond : String) : Option CondTriple :=
  (conditionSplits cond).head?

/-- The condition loop of `build_loc_query`: each condition must match the
regex (`std::invalid_argument` otherwise) and is handed to
`process_condition`, which rebuilds the accumulated query text. -/
def build_loc_fold (metadata : List ColumnMeta) :
    List String → String → Except LocErr String
  | [], q => .ok q
  | cond :: rest, q =>
    match capturedCondition cond with
    | none => .error .invalidCondition
    | some tpl =>
      match process_condition metadata tpl.lhs tpl.op tpl.rhs q with
      | .error e => .error e
      | .ok q2 => build_loc_fold metadata rest q2

/-- Model of `QueryBuilder::build_loc_query`. -/
def build_loc_query (table_name : String) (conditions : List String)
    (metadata : List ColumnMeta) : Except LocErr String :=
  build_loc_fold metadata conditions table_name

/-! ## The `iloc` / `loc` pipelines up to query dispatch

`meta` and `cnt` stand for the engine's responses to the two introspection
queries (`cnt = none` models a response that is not a long atom); the first
component of the result is the list of queries dispatched, in order. -/

/-- The schema-introspection query of `MetadataManager::get_metadata`. -/
def meta_query (table_name : String) : String :=
  "select c, t from meta `" ++ table_name

inductive SelErr where
  | invalidTable      -- "Invalid table name or empty table"
  | countFailed       -- "Failed to get table row count"
  | outOfBounds       -- std::out_of_range from the index validation
  | invalidCondition  -- std::invalid_argument from build_loc_query
deriving DecidableEq

/-- Model of `iloc` up to dispatch of the built selection query (decoding of the
response is `process_iloc_result`). -/
def iloc_run (table_name : String) (meta : List ColumnMeta) (cnt : Option Int)
    (rows cols : List Int) : List String × Except SelErr String :=
  let qs := [meta_query table_name]
  if meta.isEmpty then (qs, .error .invalidTable)
  else
    let qs := qs ++ ["count " ++ table_name]
    match cnt with
    | none => (qs, .error .countFailed)
    | some row_count =>
      if rows.any (fun r => r < 0 || row_count ≤ r) then (qs, .error .outOfBounds)
      else if cols.any (fun c => c < 0 || (meta.length : Int) ≤ c) then
        (qs, .error .outOfBounds)
      else
        let q := build_iloc_query table_name rows cols
        (qs ++ [q], .ok q)

/-- The condition-splitting loop of `loc`: split on commas, trim
`" \t\n\r"`, drop empty segments (`std::getline` omits a trailing empty
segment, which the empty filter drops anyway). -/
def split_conditions (conditions : String) : List String :=
  ((conditions.data.splitOn ',').map
    (fun l => trimChars [' ', '\t', '\n', '\r'] ⟨l⟩)).filter (· ≠ "")

/-- Model of `loc` up to dispatch of the built selection query (decoding of the
response is `process_table_result`). -/
def loc_run (table_name : String) (meta : List ColumnMeta)
    (conditions : String) : List String × Except SelErr String :=
  let qs := [meta_query table_name]
  if meta.isEmpty then (qs, .error .invalidTable)
  else
    match build_loc_query table_name (split_conditions conditions) meta with
    | .error _ => (qs, .error .invalidCondition)
    | .ok q => (qs ++ [q], .ok q)

/-! ## Wire objects, the value converter and the result shapers

Scalar payloads are abstracted to opaque tokens (`Nat`): the cardinality
rules of the result shapers never inspect them.  Atoms carry their (negative)
wire tag, vectors their positive one. -/

inductive KObj where
  | atom : Int → Nat → KObj
  | vec : Int → List Nat → KObj
  | glist : List KObj → KObj
  | ktable : List String → List KObj → KObj

/-- Model of `KDBValue`, shape-level: null (the default-constructed `KDBValue()`) or
a converted scalar. -/
inductive KDBV where
  | nullv : KDBV
  | val : Nat → KDBV
deriving DecidableEq

/-- The atom tags handled by `KDBValueConverter::convert_atom` (every other
tag falls to the "Unknown atom type" default and yields `KDBValue()`). -/
def supportedAtomT (t : Int) : Bool :=
  t ∈ [-KB, -KG, -KH, -KI, -KJ, -KE, -KF, -KC, -KS, -KM, -KD, -KU, -KV, -KT,
       -KZ, -KN]

/-- The vector tags handled by `KDBValueConverter::convert_vector`. -/
def supportedVecT (t : Int) : Bool :=
  t ∈ [KB, KG, KH, KI, KJ, KE, KF, KC, KS, KM, KD, KU, KV, KT, KZ, KN]

/-- The `n` field as the C++ code reads it (only read on vectors and general
lists). -/
def kn : KObj → Nat
  | .atom _ _ => 1
  | .vec _ vs => vs.length
  | .glist es => es.length
  | .ktable _ _ => 0

mutual
/-- Model of `KDBValueConverter::convert_k_to_value`: atoms decode directly, vectors
decode the element at `idx` (out of bounds or unknown tags give
`KDBValue()`), general lists recurse into the element at `idx` with index
`0`; a table tag falls through the vector switch to the unknown default. -/
def convert_k_to_value : KObj → Nat → KDBV
  | .atom t v, _ => if supportedAtomT t then .val v else .nullv
  | .vec t vs, idx =>
    (match vs[idx]? with
     | some v => if supportedVecT t then .val v else .nullv
     | none => .nullv)
  | .glist es, idx => convertNth es idx
  | .ktable _ _, _ => .nullv

def convertNth : List KObj → Nat → KDBV
  | [], _ => .nullv
  | e :: _, 0 => convert_k_to_value e 0
  | _ :: r, n + 1 => convertNth r n
end

/-- Model of `Result` (`KDBResult`), shape-level. -/
inductive KDBResultM where
  | value : KDBV → KDBResultM
  | row : List KDBV → KDBResultM
  | table : List (List KDBV) → KDBResultM
deriving DecidableEq

/-- Model of `TableProcessor::process_table_result`: reject non-tables; then zero rows
give an empty `Table`, one row gives a `Row` of per-column conversions, more
rows give a `Table` (row count read from the first column object). -/
def process_table_result (result : KObj) : Except Unit KDBResultM :=
  match result with
  | .ktable _ cols =>
    let num_rows := match cols.head? with | some c0 => kn c0 | none => 0
    if num_rows = 0 then .ok (.table [])
    else if num_rows = 1 then
      .ok (.row (cols.map (fun c => convert_k_to_value c 0)))
    else
      .ok (.table ((List.range num_rows).map
        (fun r => cols.map (fun c => convert_k_to_value c r))))
  | _ => .error ()

/-- Elements of a row object as `process_general_list` reads them
(`kK(row)[j]` for `j < row->n`): meaningful for general lists; reading any
other object this way is undefined behaviour, modelled as nulls. -/
def rowElems : KObj → List KDBV
  | .glist gs => gs.map (fun g => convert_k_to_value g 0)
  | o => List.replicate (kn o) .nullv

def isGListB : KObj → Bool
  | .glist _ => true
  | _ => false

/-- Model of `ResultProcessor::process_general_list`: empty lists give an empty `Row`;
when the *first* element is itself a general list (tag 0) the whole list is
treated as rows of a `Table`; otherwise each element converts to one entry of
a `Row`. -/
def process_general_list (result : List KObj) : KDBResultM :=
  match result with
  | [] => .row []
  | e0 :: _ =>
    if isGListB e0 then .table (result.map rowElems)
    else .row (result.map (fun e => convert_k_to_value e 0))

/-- Model of `ResultProcessor::process_iloc_result`: negative tags (atoms) give a
`Value`, tag 0 dispatches on the general list, positive tags convert each
vector position into a `Row` entry (a table object, tag 98, also takes the
positive branch and converts to nulls). -/
def process_iloc_result (result : KObj) : Except Unit KDBResultM :=
  match result with
  | .atom t v => .ok (.value (convert_k_to_value (.atom t v) 0))
  | .glist es => .ok (process_general_list es)
  | .vec t vs =>
    .ok (.row ((List.range vs.length).map
      (fun i => convert_k_to_value (.vec t vs) i)))
  | .ktable names cols =>
    .ok (.row (List.replicate (kn (.ktable names cols)) .nullv))

/-! ## The join orchestrator (`joins.cpp`)

Each `inline_query` call is modelled by the exact query string the C++ code
builds plus the engine-state effect of that query when it succeeds:
assignment queries (`name: ...`) define `name`, `delete name from \`.`
removes `name`, a bare table lookup has no effect.  The oracle decides the
success of the n-th call of the orchestration. -/

structure JoinSt where
  defined : List String
  qlog : List String
deriving DecidableEq

/-- Success/failure of each engine call, by call position. -/
def JOracle : Type := Nat → Bool

def addName (n : String) (d : List String) : List String :=
  if n ∈ d then d else d ++ [n]

def removeName (n : String) (d : List String) : List String :=
  d.filter (· ≠ n)

/-- One `inline_query` call. -/
def qsend (ok : JOracle) (q : String) (eff : List String → List String)
    (s : JoinSt) : Bool × JoinSt :=
  let succ := ok s.qlog.length
  (succ,
   { defined := if succ then eff s.defined else s.defined,
     qlog := s.qlog ++ [q] })

/-- The preparation query of `joins::detail::prepare_tables`. -/
def prepare_tables_q (table1 table2 : String) : String :=
  table1 ++ "_unkeyed" ++ ": 0!(" ++ table1 ++ ");" ++
  table2 ++ "_unkeyed" ++ ": 0!(" ++ table2 ++ ");"

/-- Model of `joins::detail::prepare_tables`: stage unkeyed copies of both tables. -/
def prepare_tables (ok : JOracle) (table1 table2 : String) (s : JoinSt) :
    Bool × JoinSt :=
  qsend ok (prepare_tables_q table1 table2)
    (fun d => addName (table2 ++ "_unkeyed") (addName (table1 ++ "_unkeyed") d)) s

/-- The cleanup query of `joins::detail::cleanup_tables` (the two C++ string
literals concatenate to a single statement list). -/
def cleanup_tables_q (t1u t2u : String) : String :=
  "delete " ++ t1u ++ " from `.; delete " ++ t2u ++ " from `.;"

/-- Model of `joins::detail::cleanup_tables`: best-effort delete of the two names it
is given; its own failure is not propagated. -/
def cleanup_tables (ok : JOracle) (t1u t2u : String) (s : JoinSt) : JoinSt :=
  (qsend ok (cleanup_tables_q t1u t2u)
    (fun d => removeName t2u (removeName t1u d)) s).2

/-- Model of `joins::detail::execute_join`: run the join query, fetch the result by
name, clean up the two names it is given on both paths. -/
def execute_join (ok : JOracle) (query result_name t1u t2u : String)
    (s : JoinSt) : Option Unit × JoinSt :=
  let (succ, s1) := qsend ok query (addName result_name) s
  if !succ then (none, cleanup_tables ok t1u t2u s1)
  else
    let (rok, s2) := qsend ok result_name id s1
    let s3 := cleanup_tables ok t1u t2u s2
    if !rok then (none, s3) else (some (), s3)

/-- The backtick-joined key-column list built by the keyed join functions
(`join_columns[0]` then `` `col `` for the rest). -/
def key_cols_str : List String → String
  | [] => ""
  | c :: rest => rest.foldl (fun a b => a ++ "`" ++ b) c

/-- The join query built by `joins::left_join`. -/
def left_join_query (table1 table2 result_name : String)
    (join_columns : List String) : String :=
  let t1u := table1 ++ "_unkeyed"
  let t2u := table2 ++ "_unkeyed"
  match join_columns with
  | [] =>
    result_name ++ ": " ++ t1u ++ " lj (enlist first cols[" ++ t1u ++
      "] inter cols[" ++ t2u ++ "]) xkey " ++ t2u
  | _ :: _ =>
    result_name ++ ": " ++ t1u ++ " lj `" ++ key_cols_str join_columns ++
      " xkey " ++ t2u

/-- The join query built by `joins::right_join`. -/
def right_join_query (table1 table2 result_name : String)
    (join_columns : List String) : String :=
  let t1u := table1 ++ "_unkeyed"
  let t2u := table2 ++ "_unkeyed"
  match join_columns with
  | [] =>
    result_name ++ ": " ++ t2u ++ " lj (enlist first cols[" ++ t1u ++
      "] inter cols[" ++ t2u ++ "]) xkey " ++ t1u
  | _ :: _ =>
    result_name ++ ": " ++ t2u ++ " lj `" ++ key_cols_str join_columns ++
      " xkey " ++ t1u

/-- The join query built by `joins::inner_join`. -/
def inner_join_query (table1 table2 result_name : String)
    (join_columns : List String) : String :=
  let t1u := table1 ++ "_unkeyed"
  let t2u := table2 ++ "_unkeyed"
  match join_columns with
  | [] =>
    result_name ++ ": " ++ t1u ++ " ij (enlist first cols[" ++ t1u ++
      "] inter cols[" ++ t2u ++ "]) xkey " ++ t2u
  | _ :: _ =>
    result_name ++ ": " ++ t1u ++ " ij `" ++ key_cols_str join_columns ++
      " xkey " ++ t2u

/-- Model of `joins::left_join` as a trace. -/
def left_join (ok : JOracle) (table1 table2 result_name : String)
    (join_columns : List String) (s : JoinSt) : Option Unit × JoinSt :=
  let (pok, s1) := prepare_tables ok table1 table2 s
  if !pok then (none, s1)
  else
    execute_join ok (left_join_query table1 table2 result_name join_columns)
      result_name (table1 ++ "_unkeyed") (table2 ++ "_unkeyed") s1

/-- Model of `joins::right_join` as a trace. -/
def right_join (ok : JOracle) (table1 table2 result_name : String)
    (join_columns : List String) (s : JoinSt) : Option Unit × JoinSt :=
  let (pok, s1) := prepare_tables ok table1 table2 s
  if !pok then (none, s1)
  else
    execute_join ok (right_join_query table1 table2 result_name join_columns)
      result_name (table1 ++ "_unkeyed") (table2 ++ "_unkeyed") s1

/-- Model of `joins::union_join` as a trace. -/
def union_join (ok : JOracle) (table1 table2 result_name : String)
    (s : JoinSt) : Option Unit × JoinSt :=
  let (pok, s1) := prepare_tables ok table1 table2 s
  if !pok then (none, s1)
  else
    execute_join ok
      (result_name ++ ": " ++ (table1 ++ "_unkeyed") ++ " uj " ++
        (table2 ++ "_unkeyed"))
      result_name (table1 ++ "_unkeyed") (table2 ++ "_unkeyed") s1

/-- Model of `joins::asof_join` as a trace: stages both tables, stages the renamed
right table (`<t2u>_adj`), executes `aj`, and passes `t1u` and `<t2u>_adj` —
not `t2u` — to `execute_join`'s cleanup; afterwards it deletes `<t2u>_adj`
once more. -/
def asof_join (ok : JOracle)
    (table1 table2 result_name time_column_left time_column_right : String)
    (join_columns : List String) (s : JoinSt) : Option Unit × JoinSt :=
  let (pok, s1) := prepare_tables ok table1 table2 s
  if !pok then (none, s1)
  else
    let t1u := table1 ++ "_unkeyed"
    let t2u := table2 ++ "_unkeyed"
    let join_by := key_cols_str join_columns
    let rename_query :=
      "update " ++ time_column_right ++ "2:" ++ time_column_right ++
        " from " ++ t2u
    let (rok, s2) :=
      qsend ok (t2u ++ "_adj: " ++ rename_query) (addName (t2u ++ "_adj")) s1
    if !rok then (none, cleanup_tables ok t1u t2u s2)
    else
      let aj_query :=
        if join_by ≠ "" then
          result_name ++ ": aj[`" ++ join_by ++ "`" ++ time_column_left ++
            ";" ++ t1u ++ ";" ++ t2u ++ "_adj]"
        else
          result_name ++ ": aj[`" ++ time_column_left ++ ";" ++ t1u ++ ";" ++
            t2u ++ "_adj]"
      let (res, s3) :=
        execute_join ok aj_query result_name t1u (t2u ++ "_adj") s2
      let s4 :=
        (qsend ok ("delete " ++ t2u ++ "_adj from `.")
          (removeName (t2u ++ "_adj")) s3).2
      (res, s4)

/-- The staging tables an `asof_join(t1, t2, ...)` call creates. -/
def asof_staging (table1 table2 : String) : List String :=
  [table1 ++ "_unkeyed", table2 ++ "_unkeyed", table2 ++ "_unkeyed_adj"]

/-! # Supporting lemmas -/

/-- Tail rendering of a `;`-separated list. -/
def semiSepTail : List Int → String
  | [] => ""
  | i :: rest => ";" ++ toDecString i ++ semiSepTail rest

theorem foldl_semi (rest : List Int) :
    ∀ a : String,
      rest.foldl (fun x b => x ++ ";" ++ toDecString b) a = a ++ semiSepTail rest := by
  induction rest with
  | nil => intro a; simp [semiSepTail, String.append_empty]
  | cons b r ih =>
    intro a
    rw [List.foldl_cons, ih, semiSepTail]
    simp [String.append_assoc]

theorem semiSepIndices_cons (i : Int) (rest : List Int) :
    semiSepIndices (i :: rest) = toDecString i ++ semiSepTail rest := by
  induction rest generalizing i with
  | nil => simp [semiSepIndices, semiSepTail, String.append_empty]
  | cons b r ih =>
    show toDecString i ++ ";" ++ semiSepIndices (b :: r) = _
    rw [ih b, semiSepTail]
    simp [String.append_assoc]

theorem format_indices_eq (l : List Int) (d : String) :
    format_indices l d =
      if l.isEmpty then d else "(" ++ semiSepIndices l ++ ")" := by
  match l with
  | [] => rfl
  | i :: rest =>
    show "(" ++ rest.foldl (fun a b => a ++ ";" ++ toDecString b) (toDecString i) ++ ")" = _
    rw [foldl_semi, semiSepIndices_cons]
    rfl

theorem mem_of_head?_eq {α : Type} {l : List α} {a : α}
    (h : l.head? = some a) : a ∈ l := by
  match l, h with
  | x :: t, h =>
    have : x = a := by simpa using h
    subst this
    exact List.mem_cons_self x t

theorem wrap16_eq {v : Int} (h1 : -32768 ≤ v) (h2 : v ≤ 32767) :
    wrap16 v = v := by
  unfold wrap16
  have := Int.emod_eq_of_lt (a := v + 32768) (b := 65536) (by omega) (by omega)
  omega

/-! # Claims -/

/-- C2: `iloc` generates exactly
`(0!<table>)[<rowIndexList>;(cols <table>)[<colIndexList>]]`: a non-empty
index list renders as a parenthesised `;`-separated list in the caller's
order, an empty rows list as `til count <table>`, an empty cols list as
`til count cols <table>`. -/
theorem iloc_query_text (table_name : String) (rows cols : List Int) :
    build_iloc_query table_name rows cols =
      "(0!" ++ table_name ++ ")[" ++
        (if rows.isEmpty then "til count " ++ table_name
         else "(" ++ semiSepIndices rows ++ ")") ++
        ";(cols " ++ table_name ++ ")[" ++
        (if cols.isEmpty then "til count cols " ++ table_name
         else "(" ++ semiSepIndices cols ++ ")") ++ "]]" := by
  unfold build_iloc_query
  rw [format_indices_eq, format_indices_eq]

/-- C9 (counterexample): with no join columns supplied,
`right_join(t1, t2, r)` and `left_join(t2, t1, r)` build different join
queries — the inferred key comes from `cols[t1_unkeyed] inter
cols[t2_unkeyed]` in the first and from `cols[t2_unkeyed] inter
cols[t1_unkeyed]` in the second. -/
theorem right_join_natural_query_differs :
    right_join_query "t1" "t2" "r" [] ≠ left_join_query "t2" "t1" "r" [] ∧
    right_join_query "t1" "t2" "r" [] =
      "r: t2_unkeyed lj (enlist first cols[t1_unkeyed] inter cols[t2_unkeyed]) xkey t1_unkeyed" ∧
    left_join_query "t2" "t1" "r" [] =
      "r: t2_unkeyed lj (enlist first cols[t2_unkeyed] inter cols[t1_unkeyed]) xkey t1_unkeyed" := by
  refine ⟨?_, rfl, rfl⟩
  decide

/-- C9 (amended): when join columns are supplied, `right_join(T1, T2, R, cols)`
builds exactly the join query of `left_join(T2, T1, R, cols)` (operand order
swapped); the natural-join (inferred-key) case differs. -/
theorem right_join_swapped_left_join (table1 table2 result_name : String)
    (c : String) (cs : List String) :
    right_join_query table1 table2 result_name (c :: cs) =
      left_join_query table2 table1 result_name (c :: cs) := rfl

/-- C3: on a fully successful `asof_join` call, the staging table
`<table2>_unkeyed` created by `prepare_tables` is still defined when the call
returns — `execute_join` is handed `<table2>_unkeyed_adj` instead, and the
final extra delete also targets `_adj`, so the claim that every staging table
is deleted on every exit path fails on the success path already. -/
theorem asof_join_leaves_staging_table :
    (asof_join (fun _ => true) "trades" "quotes" "res" "ts" "ts" []
      ⟨[], []⟩).1 = some () ∧
    "quotes_unkeyed" ∈ asof_staging "trades" "quotes" ∧
    "quotes_unkeyed" ∈
      (asof_join (fun _ => true) "trades" "quotes" "res" "ts" "ts" []
        ⟨[], []⟩).2.defined := by
  decide

/-- C8: on the sample list `["12:34"]` every registered validator that
precedes symbol in the priority order rejects the sample while the minute
validator (`is_minute`, present in the source but never registered in the
extended type map) accepts it; the claimed order would therefore return
minute (`KU` = 17), but `infer_column_type` returns symbol (`KS` = 11)
because the validity flags of the unregistered keys `p m n u v` default to
`false`. -/
theorem infer_type_minute_sample_yields_symbol :
    infer_column_type ["12:34"] = KS ∧ KS = 11 ∧ KU = 17 ∧
    is_minute "12:34" = true ∧
    validate_boolean "12:34" = false ∧ validate_integer "12:34" = false ∧
    validate_float "12:34" = false ∧ is_date "12:34" = false ∧
    is_datetime "12:34" = false ∧ is_time "12:34" = false ∧
    is_timestamp "12:34" = false ∧ is_month "12:34" = false ∧
    is_timespan "12:34" = false := by
  decide

/-- C10: `assign_value` never propagates an exception: empty text assigns the
type's null sentinel, a throwing value parser assigns the null sentinel, and
otherwise the parsed cell is written; in every case the function returns
normally. -/
theorem assign_value_total (k : TKey) (v : String) :
    (v = "" → assign_value k v = nullCell k) ∧
    (∀ e, value_assigner k v = .error e → assign_value k v = nullCell k) ∧
    (∀ c, v ≠ "" → value_assigner k v = .ok c → assign_value k v = c) := by
  refine ⟨?_, ?_, ?_⟩
  · intro h
    simp [assign_value, assign_null_value, h]
  · intro e he
    by_cases hv : v = ""
    · simp [assign_value, assign_null_value, hv]
    · simp [assign_value, assign_null_value, hv, he]
  · intro c hv hc
    simp [assign_value, hv, hc]

/-- Witness for C10 at concrete inputs: empty text, a throwing `std::stoi`
parse, and a successful parse on the int column type. -/
theorem assign_value_total_witness :
    assign_value .i "" = .ci nullI ∧
    assign_value .i "xx" = .ci nullI ∧
    assign_value .i "42" = .ci 42 := by
  refine ⟨?_, ?_, ?_⟩
  · have h := (assign_value_total .i "").1 rfl
    simpa [nullCell] using h
  · have h := (assign_value_total .i "xx").2.1 () (by rfl)
    simpa [nullCell] using h
  · have h := (assign_value_total .i "42").2.2 (.ci 42) (by decide) (by rfl)
    exact h

/-- C4: in `process_condition` the right-hand side is backtick-prefixed
exactly when the left-hand side is the name of a metadata column of symbol
type (`KS`) and the right-hand side contains no arithmetic operator or
parenthesis; otherwise both sides pass through `evaluate_expression`, which
returns simple expressions as-is and parenthesises compound ones. -/
theorem loc_symbol_literal_rendering (metadata : List ColumnMeta)
    (lhs op rhs q mop : String) (hop : valid_ops op = some mop) :
    ((∃ m, metadata.find? (fun x => x.name = lhs) = some m ∧
        m.type_code = KS) →
      needs_evaluation rhs = false →
      process_condition metadata lhs op rhs q =
        .ok ("(0!select from (" ++ q ++ ") where " ++
          evaluate_expression lhs ++ " " ++ mop ++ " " ++
          ("`" ++ rhs) ++ ")")) ∧
    (symbolRhsCase metadata lhs rhs = false →
      process_condition metadata lhs op rhs q =
        .ok ("(0!select from (" ++ q ++ ") where " ++
          evaluate_expression lhs ++ " " ++ mop ++ " " ++
          evaluate_expression rhs ++ ")")) ∧
    (∀ e, needs_evaluation e = false → evaluate_expression e = e) ∧
    (∀ e, needs_evaluation e = true →
      evaluate_expression e = "(" ++ e ++ ")") := by
  refine ⟨?_, ?_, ?_, ?_⟩
  · rintro ⟨m, hfind, hks⟩ hrhs
    have hcase : symbolRhsCase metadata lhs rhs = true := by
      simp [symbolRhsCase, hfind, hks, hrhs]
    simp only [process_condition, hop, hcase, if_true]
  · intro hcase
    simp only [process_condition, hop, hcase, Bool.false_eq_true, if_false]
  · intro e he; simp [evaluate_expression, he]
  · intro e he; simp [evaluate_expression, he]

/-- Witness for C4: `ticker=AAPL` on a table whose `ticker` column is a
symbol column renders the bare right-hand token as a symbol literal. -/
theorem loc_symbol_literal_rendering_witness :
    process_condition [⟨"ticker", KS⟩] "ticker" "=" "AAPL" "trades" =
      .ok "(0!select from (trades) where ticker = `AAPL)" ∧
    process_condition [⟨"ticker", KS⟩] "price" ">" "25" "trades" =
      .ok "(0!select from (trades) where price > 25)" := by
  constructor
  · have h := (loc_symbol_literal_rendering [⟨"ticker", KS⟩]
      "ticker" "=" "AAPL" "trades" "=" rfl).1
      ⟨⟨"ticker", KS⟩, by decide, rfl⟩ (by decide)
    simpa [evaluate_expression] using h
  · have h := (loc_symbol_literal_rendering [⟨"ticker", KS⟩]
      "price" ">" "25" "trades" ">" rfl).2.1 (by decide)
    simpa [evaluate_expression] using h

/-- If some condition admits no decomposition with a mapped operator, the
condition loop throws (either "Invalid condition format" when the regex does
not match at all, or "Invalid operator" when the captured operator is not in
the map — both `std::invalid_argument`). -/
theorem build_loc_fold_error_of_bad (metadata : List ColumnMeta) :
    ∀ (conds : List String) (q : String),
      (∃ cond ∈ conds, ∀ tpl ∈ conditionSplits cond, valid_ops tpl.op = none) →
      build_loc_fold metadata conds q = .error .invalidCondition := by
  intro conds
  induction conds with
  | nil =>
    intro q h
    rcases h with ⟨c, hc, _⟩
    simp at hc
  | cons c0 rest ih =>
    intro q h
    rcases h with ⟨c, hc, hbad⟩
    unfold build_loc_fold
    rcases List.mem_cons.mp hc with hc0 | hcr
    · subst hc0
      split
      · rfl
      · rename_i tpl hcap
        have hop := hbad tpl (mem_of_head?_eq hcap)
        split
        · rename_i e hpc
          cases e
          rfl
        · rename_i q2 hpc
          exfalso
          simp [process_condition, hop] at hpc
    · split
      · rfl
      · rename_i tpl hcap
        split
        · rename_i e hpc
          cases e
          rfl
        · rename_i q2 hpc
          exact ih q2 ⟨c, hcr, hbad⟩

/-- C5 (amended): bounds and grammar validation happen after the read-only
introspection queries but before the built selection query is dispatched: an
out-of-range index makes `iloc` raise `OutOfBounds` having sent only the
metadata and row-count queries, and a condition not matching the grammar
makes `loc` raise `InvalidCondition` having sent only the metadata query —
the selection query is never dispatched in either case. -/
theorem validation_precedes_selection_query (table_name : String)
    (meta : List ColumnMeta) (row_count : Int) (rows cols : List Int)
    (conditions : String) (hmeta : meta ≠ []) :
    ((∃ r ∈ rows, r < 0 ∨ row_count ≤ r) ∨
        (∃ c ∈ cols, c < 0 ∨ (meta.length : Int) ≤ c) →
      iloc_run table_name meta (some row_count) rows cols =
        ([meta_query table_name, "count " ++ table_name],
          .error .outOfBounds)) ∧
    ((∃ cond ∈ split_conditions conditions,
        ∀ tpl ∈ conditionSplits cond, valid_ops tpl.op = none) →
      loc_run table_name meta conditions =
        ([meta_query table_name], .error .invalidCondition)) := by
  have hIE : meta.isEmpty = false := by
    cases meta with
    | nil => exact absurd rfl hmeta
    | cons m t => rfl
  constructor
  · intro hbad
    simp only [iloc_run, hIE, Bool.false_eq_true, if_false]
    by_cases hrows : rows.any (fun r => decide (r < 0) || decide (row_count ≤ r)) = true
    · rw [if_pos hrows]
      rfl
    · rw [if_neg hrows]
      have hcols : cols.any (fun c => decide (c < 0) ||
          decide ((meta.length : Int) ≤ c)) = true := by
        rcases hbad with hl | hr
        · exfalso
          apply hrows
          rcases hl with ⟨r, hrm, hro⟩
          refine List.any_eq_true.mpr ⟨r, hrm, ?_⟩
          simpa using hro
        · rcases hr with ⟨c, hcm, hco⟩
          refine List.any_eq_true.mpr ⟨c, hcm, ?_⟩
          simpa using hco
      rw [if_pos hcols]
      rfl
  · intro hbad
    have herr := build_loc_fold_error_of_bad meta (split_conditions conditions)
      table_name hbad
    simp only [loc_run, hIE, Bool.false_eq_true, if_false, build_loc_query, herr]

/-- C5 (counterexample): validation errors are raised with the introspection
queries already dispatched — the query lists are not empty, although the
claim says no query is sent. -/
theorem out_of_bounds_still_sends_introspection :
    (iloc_run "t" [⟨"a", KJ⟩] (some 2) [5] []).2 = .error .outOfBounds ∧
    (iloc_run "t" [⟨"a", KJ⟩] (some 2) [5] []).1 ≠ [] ∧
    (loc_run "t" [⟨"a", KJ⟩] "price >< 25").2 = .error .invalidCondition ∧
    (loc_run "t" [⟨"a", KJ⟩] "price >< 25").1 ≠ [] := by
  decide

/-- Witness for C5 at concrete inputs. -/
theorem validation_precedes_selection_query_witness :
    iloc_run "t" [⟨"a", KJ⟩] (some 2) [5] [] =
      (["select c, t from meta `t", "count t"], .error .outOfBounds) ∧
    loc_run "t" [⟨"a", KJ⟩] "price >< 25" =
      (["select c, t from meta `t"], .error .invalidCondition) := by
  constructor
  · exact (validation_precedes_selection_query "t" [⟨"a", KJ⟩] 2 [5] []
      "price >< 25" (by decide)).1 (Or.inl ⟨5, by decide, by omega⟩)
  · exact (validation_precedes_selection_query "t" [⟨"a", KJ⟩] 2 [5] []
      "price >< 25" (by decide)).2 ⟨"price >< 25", by decide, by decide⟩

/-- The nesting step the claim describes: wrap the previous query and attach
the rendered sides with the mapped operator. -/
def nestStep (metadata : List ColumnMeta) (q : String) (tpl : CondTriple) :
    String :=
  "(0!select from (" ++ q ++ ") where " ++ evaluate_expression tpl.lhs ++
    " " ++ ((valid_ops tpl.op).getD "") ++ " " ++
    (if symbolRhsCase metadata tpl.lhs tpl.rhs then "`" ++ tpl.rhs
     else evaluate_expression tpl.rhs) ++ ")"

theorem build_loc_fold_nest (metadata : List ColumnMeta)
    (conds : List String) (tpls : List CondTriple)
    (h : List.Forall₂ (fun cond tpl => capturedCondition cond = some tpl ∧
      (valid_ops tpl.op).isSome = true) conds tpls) :
    ∀ q : String,
      build_loc_fold metadata conds q =
        .ok (tpls.foldl (nestStep metadata) q) := by
  induction h with
  | nil => intro q; rfl
  | cons hct htail ih =>
    rename_i cond tpl conds2 tpls2
    intro q
    obtain ⟨hcap, hops⟩ := hct
    rw [List.foldl_cons]
    unfold build_loc_fold
    rw [hcap]
    obtain ⟨mop, hmop⟩ := Option.isSome_iff_exists.mp hops
    have hpc : process_condition metadata tpl.lhs tpl.op tpl.rhs q =
        .ok (nestStep metadata q tpl) := by
      simp [process_condition, hmop, nestStep]
    show (match process_condition metadata tpl.lhs tpl.op tpl.rhs q with
          | Except.error e => Except.error e
          | Except.ok q2 => build_loc_fold metadata conds2 q2) =
        Except.ok (List.foldl (nestStep metadata) (nestStep metadata q tpl) tpls2)
    rw [hpc]
    exact ih (nestStep metadata q tpl)

/-- C1: for conditions accepted by the grammar (each captures a triple with a
mapped operator), `build_loc_query` nests left to right: starting from the
bare table name, each condition wraps the previous query text as
`(0!select from (<prev>) where <lhs> <mappedOp> <rhs>)`; the operator map is
exactly `>`→`>`, `<`→`<`, `>=`→`>=`, `<=`→`<=`, `=`→`=`, `==`→`=`,
`!=`→`<>`, `like`→`like`, `~`→`~`. -/
theorem loc_query_nesting (table_name : String) (metadata : List ColumnMeta)
    (conditions : List String) (tpls : List CondTriple)
    (h : List.Forall₂ (fun cond tpl => capturedCondition cond = some tpl ∧
      (valid_ops tpl.op).isSome = true) conditions tpls) :
    build_loc_query table_name conditions metadata =
      .ok (tpls.foldl (nestStep metadata) table_name) ∧
    valid_ops ">" = some ">" ∧ valid_ops "<" = some "<" ∧
    valid_ops ">=" = some ">=" ∧ valid_ops "<=" = some "<=" ∧
    valid_ops "=" = some "=" ∧ valid_ops "==" = some "=" ∧
    valid_ops "!=" = some "<>" ∧ valid_ops "like" = some "like" ∧
    valid_ops "~" = some "~" := by
  refine ⟨build_loc_fold_nest metadata conditions tpls h table_name,
    ?_, ?_, ?_, ?_, ?_, ?_, ?_, ?_, ?_⟩ <;> decide

/-- Witness for C1: two sequential conditions nest left to right. -/
theorem loc_query_nesting_witness :
    build_loc_query "trades" ["price>25", "size<10"] [] =
      .ok "(0!select from ((0!select from (trades) where price > 25)) where size < 10)" := by
  have h := (loc_query_nesting "trades" [] ["price>25", "size<10"]
    [⟨"price", ">", "25"⟩, ⟨"size", "<", "10"⟩]
    (.cons ⟨by decide, by decide⟩ (.cons ⟨by decide, by decide⟩ .nil))).1
  rw [h]
  decide

/-- A wire object that is a list shape (homogeneous vector or general
list), as opposed to an atom. -/
def isListShape : KObj → Bool
  | .vec _ _ => true
  | .glist _ => true
  | _ => false

/-- C6 (counterexample): a general list whose first element is itself a list
— a homogeneous vector — is shaped into a `Row` (converting only element 0 of
each vector), not into a `Table` as the claim states; the dispatch tests the
first element's tag against 0 (general list), not against being a list. -/
theorem general_list_of_vectors_shapes_to_row :
    isListShape (KObj.vec KJ [1, 2]) = true ∧
    process_iloc_result (.glist [.vec KJ [1, 2], .vec KJ [3, 4]]) =
      .ok (.row [.val 1, .val 3]) := by
  constructor
  · decide
  · rfl

/-- C6 (amended): the result shaper's cardinality rules.  Tabular responses:
zero rows give an empty `Table`, one row a `Row` with one value per column,
more rows a `Table` of per-row `Row`s.  Non-tabular responses: an atom gives
a `Value`; a homogeneous vector a `Row` with one entry per position; an
empty general list an empty `Row`; a general list whose first element is a
*general list* (tag 0) a `Table` with one row per element; any other general
list — including one whose first element is a homogeneous vector — a `Row`
with one entry per element. -/
theorem result_shaper_cardinality :
    (∀ (names : List String) (c0 : KObj) (cs : List KObj), kn c0 = 0 →
      process_table_result (.ktable names (c0 :: cs)) = .ok (.table [])) ∧
    (∀ (names : List String) (c0 : KObj) (cs : List KObj), kn c0 = 1 →
      process_table_result (.ktable names (c0 :: cs)) =
        .ok (.row ((c0 :: cs).map (fun c => convert_k_to_value c 0)))) ∧
    (∀ (names : List String) (c0 : KObj) (cs : List KObj), 1 < kn c0 →
      ∃ rows, process_table_result (.ktable names (c0 :: cs)) =
          .ok (.table rows) ∧
        rows.length = kn c0 ∧
        ∀ row ∈ rows, row.length = (c0 :: cs).length) ∧
    (∀ (t : Int) (v : Nat), process_iloc_result (.atom t v) =
      .ok (.value (convert_k_to_value (.atom t v) 0))) ∧
    (∀ (t : Int) (vs : List Nat), ∃ elems,
      process_iloc_result (.vec t vs) = .ok (.row elems) ∧
      elems.length = vs.length) ∧
    (process_iloc_result (.glist []) = .ok (.row [])) ∧
    (∀ (e0 : KObj) (es : List KObj), isGListB e0 = true →
      ∃ rows, process_iloc_result (.glist (e0 :: es)) = .ok (.table rows) ∧
        rows.length = es.length + 1) ∧
    (∀ (e0 : KObj) (es : List KObj), isGListB e0 = false →
      process_iloc_result (.glist (e0 :: es)) =
        .ok (.row ((e0 :: es).map (fun e => convert_k_to_value e 0)))) := by
  refine ⟨?_, ?_, ?_, ?_, ?_, ?_, ?_, ?_⟩
  · intro names c0 cs h
    simp [process_table_result, h]
  · intro names c0 cs h
    simp [process_table_result, h]
  · intro names c0 cs h
    refine ⟨(List.range (kn c0)).map
      (fun r => (c0 :: cs).map (fun c => convert_k_to_value c r)), ?_, ?_, ?_⟩
    · simp only [process_table_result, List.head?_cons]
      rw [if_neg (by omega), if_neg (by omega)]
    · simp
    · intro row hrow
      rcases List.mem_map.mp hrow with ⟨r, _, hr⟩
      subst hr
      simp
  · intro t v; rfl
  · intro t vs
    exact ⟨_, rfl, by simp⟩
  · rfl
  · intro e0 es h
    refine ⟨(e0 :: es).map rowElems, ?_, by simp⟩
    simp [process_iloc_result, process_general_list, h]
  · intro e0 es h
    simp [process_iloc_result, process_general_list, h]

/-- Witness for C6 at concrete inputs: a 2×2 table shapes to a `Table`, a
1-row table to a `Row`, a vector to a `Row`, a nested general list to a
`Table`. -/
theorem result_shaper_cardinality_witness :
    (∃ rows, process_table_result
        (.ktable ["a", "b"] [.vec KJ [1, 2], .vec KJ [3, 4]]) =
      .ok (.table rows) ∧ rows.length = 2 ∧ ∀ row ∈ rows, row.length = 2) ∧
    process_table_result (.ktable ["a"] [.vec KJ [5]]) =
      .ok (.row [.val 5]) ∧
    (∃ elems, process_iloc_result (.vec KJ [7, 8]) = .ok (.row elems) ∧
      elems.length = 2) ∧
    (∃ rows, process_iloc_result
        (.glist [.glist [.atom (-KJ) 1], .glist [.atom (-KJ) 2]]) =
      .ok (.table rows) ∧ rows.length = 2) := by
  refine ⟨?_, ?_, ?_, ?_⟩
  · exact result_shaper_cardinality.2.2.1 ["a", "b"]
      (.vec KJ [1, 2]) [.vec KJ [3, 4]] (by decide)
  · have h := result_shaper_cardinality.2.1 ["a"] (.vec KJ [5]) [] (by decide)
    rw [h]
    rfl
  · exact result_shaper_cardinality.2.2.2.2.1 KJ [7, 8]
  · exact result_shaper_cardinality.2.2.2.2.2.2.1
      (.glist [.atom (-KJ) 1]) [.glist [.atom (-KJ) 2]] (by decide)

/-! ### Two-digit rendering and `get_time` parsing lemmas (for C7) -/

theorem natDigitsRevAux_zero_n (fuel : Nat) : natDigitsRevAux fuel 0 = [] := by
  cases fuel <;> rfl

theorem natDigitsRevAux_step {fuel n : Nat} (hn : 1 ≤ n) (hf : 1 ≤ fuel) :
    natDigitsRevAux fuel n =
      digitChar (n % 10) :: natDigitsRevAux (fuel - 1) (n / 10) := by
  match fuel, n, hn, hf with
  | f + 1, m + 1, _, _ => rfl

theorem natDigits_one {n : Nat} (h : n < 10) : natDigits n = [digitChar n] := by
  by_cases h0 : n = 0
  · subst h0; rfl
  · rw [natDigits, if_neg h0]
    show (natDigitsRevAux n n).reverse = _
    rw [natDigitsRevAux_step (by omega) (by omega)]
    have h10 : n / 10 = 0 := by omega
    have hm : n % 10 = n := by omega
    rw [h10, natDigitsRevAux_zero_n, hm]
    rfl

theorem natDigits_two {n : Nat} (h1 : 10 ≤ n) (h2 : n < 100) :
    natDigits n = [digitChar (n / 10), digitChar (n % 10)] := by
  rw [natDigits, if_neg (by omega)]
  show (natDigitsRevAux n n).reverse = _
  rw [natDigitsRevAux_step (by omega) (by omega)]
  rw [natDigitsRevAux_step (show 1 ≤ n / 10 by omega) (show 1 ≤ n - 1 by omega)]
  have ha : n / 10 % 10 = n / 10 := by omega
  have hb : n / 10 / 10 = 0 := by omega
  rw [ha, hb, natDigitsRevAux_zero_n]
  rfl

theorem pad2_data {n : Int} (h0 : 0 ≤ n) (h : n < 100) :
    (pad2 n).data = [digitChar (n.toNat / 10), digitChar (n.toNat % 10)] := by
  have habs : n.natAbs = n.toNat := by omega
  by_cases hlt : n < 10
  · have hcond : (decide (0 ≤ n) && decide (n < 10)) = true := by
      simp [h0, hlt]
    have h10 : n.toNat / 10 = 0 := by omega
    rw [pad2, if_pos hcond, toDecString, if_neg (by omega), h10]
    rw [String.data_append]
    show '0' :: (natDigits n.natAbs) = _
    rw [habs, natDigits_one (by omega)]
    have hmod : n.toNat % 10 = n.toNat := by omega
    rw [hmod]
    rfl
  · have hcond : (decide (0 ≤ n) && decide (n < 10)) = false := by
      simp [hlt]
    rw [pad2, if_neg (by simp [hcond]), toDecString, if_neg (by omega)]
    show natDigits n.natAbs = _
    rw [habs, natDigits_two (by omega) (by omega)]

theorem digitsVal_two {x y : Nat} (hx : x < 10) (hy : y < 10) :
    digitsVal [digitChar x, digitChar y] = 10 * x + y := by
  simp only [digitsVal, List.foldl_cons, List.foldl_nil,
    digitVal_digitChar hx, digitVal_digitChar hy]
  omega

theorem getTimeNum_dd {x y : Nat} (hx : x < 10) (hy : y < 10)
    {r : List Char} (hr : r.takeWhile isDigitCh = []) :
    getTimeNum 2 (digitChar x :: digitChar y :: r) = some (10 * x + y, r) := by
  have htw : (digitChar x :: digitChar y :: r).takeWhile isDigitCh =
      [digitChar x, digitChar y] := by
    rw [List.takeWhile_cons, isDigitCh_digitChar hx]
    simp only [if_true]
    rw [List.takeWhile_cons, isDigitCh_digitChar hy]
    simp only [if_true, hr]
  simp only [getTimeNum, htw]
  show (if ([digitChar x, digitChar y] : List Char).isEmpty = true then none
        else some (digitsVal [digitChar x, digitChar y], r)) = some (10 * x + y, r)
  rw [digitsVal_two hx hy]
  rfl

theorem takeWhile_colon (r : List Char) :
    (':' :: r).takeWhile isDigitCh = [] := by
  rw [List.takeWhile_cons]
  simp [isDigitCh]

/-- Round trip of the time formatter and `detail::parse_time` on whole-second
in-day values. -/
theorem parse_time_format_t {v : Int} (h0 : 0 ≤ v) (h1 : v < 86400000)
    (h2 : v.tmod 1000 = 0) : parse_time (format_t v) = v := by
  have e1 : v.tdiv 1000 = v / 1000 := Int.tdiv_eq_ediv h0 (by omega)
  have hts : 0 ≤ v / 1000 := Int.ediv_nonneg h0 (by omega)
  have htslt : v / 1000 < 86400 := by omega
  have e2 : (v.tdiv 1000).tdiv 3600 = v / 1000 / 3600 := by
    rw [e1]; exact Int.tdiv_eq_ediv hts (by omega)
  have e3 : (v.tdiv 1000).tmod 3600 = v / 1000 % 3600 := by
    rw [e1]; exact Int.tmod_eq_emod hts (by omega)
  have e4 : (v / 1000 % 3600).tdiv 60 = v / 1000 % 3600 / 60 :=
    Int.tdiv_eq_ediv (Int.emod_nonneg _ (by omega)) (by omega)
  have e5 : (v.tdiv 1000).tmod 60 = v / 1000 % 60 := by
    rw [e1]; exact Int.tmod_eq_emod hts (by omega)
  have hfmt : format_t v =
      pad2 (v / 1000 / 3600) ++ ":" ++ pad2 (v / 1000 % 3600 / 60) ++ ":" ++
        pad2 (v / 1000 % 60) := by
    simp only [format_t]
    rw [if_neg (show ¬ v = nullI by unfold nullI; omega), e2, e3, e4, e5]
  set H := v / 1000 / 3600 with hH
  set M := v / 1000 % 3600 / 60 with hM
  set S := v / 1000 % 60 with hS
  have hHb : 0 ≤ H ∧ H < 24 := by constructor <;> omega
  have hMb : 0 ≤ M ∧ M < 60 := by constructor <;> omega
  have hSb : 0 ≤ S ∧ S < 60 := by constructor <;> omega
  have hdata : (format_t v).data =
      digitChar (H.toNat / 10) :: digitChar (H.toNat % 10) :: ':' ::
      digitChar (M.toNat / 10) :: digitChar (M.toNat % 10) :: ':' ::
      digitChar (S.toNat / 10) :: digitChar (S.toNat % 10) :: [] := by
    rw [hfmt]
    rw [String.data_append, String.data_append, String.data_append,
      String.data_append]
    rw [pad2_data hHb.1 (by omega), pad2_data hMb.1 (by omega),
      pad2_data hSb.1 (by omega)]
    rfl
  rw [parse_time, hdata]
  rw [getTimeNum_dd (by omega) (by omega) (takeWhile_colon _)]
  rw [Option.some_bind]
  show (match (getTimeNum 2 (digitChar (M.toNat / 10) :: digitChar (M.toNat % 10)
      :: ':' :: digitChar (S.toNat / 10) :: digitChar (S.toNat % 10) :: [])).bind
      (fun mr => (expectColon mr.2).bind (fun r4 =>
        (getTimeNum 2 r4).map (fun sr =>
          (((10 * (H.toNat / 10) + H.toNat % 10 : Nat) : Int) * 3600 +
            mr.1 * 60 + sr.1) * 1000))) with
    | some v => v
    | none => nullI) = v
  rw [getTimeNum_dd (by omega) (by omega) (takeWhile_colon _)]
  rw [Option.some_bind]
  show (match (getTimeNum 2 (digitChar (S.toNat / 10) ::
      digitChar (S.toNat % 10) :: [])).map (fun sr =>
        (((10 * (H.toNat / 10) + H.toNat % 10 : Nat) : Int) * 3600 +
          ((10 * (M.toNat / 10) + M.toNat % 10 : Nat) : Int) * 60 +
          sr.1) * 1000) with
    | some v => v
    | none => nullI) = v
  rw [getTimeNum_dd (by omega) (by omega) (by rfl)]
  rw [Option.map_some']
  show (((10 * (H.toNat / 10) + H.toNat % 10 : Nat) : Int) * 3600 +
      ((10 * (M.toNat / 10) + M.toNat % 10 : Nat) : Int) * 60 +
      ((10 * (S.toNat / 10) + S.toNat % 10 : Nat) : Int)) * 1000 = v
  have h2e : v % 1000 = 0 := by
    rw [← Int.tmod_eq_emod h0 (by omega)]
    exact h2
  omega

/-- C7 (counterexample): the byte type does not round-trip (`format` prints
the decimal text, the parser takes the first character); the time type drops
the millisecond remainder; the short null formats to its decimal text, not
to the `"NULL"` null text; and the datetime null (NaN) never formats to
`"NULL"` because the `days == nf` check is an IEEE comparison with NaN. -/
theorem registry_roundtrip_counterexample :
    format_g 65 = "65" ∧ value_assigner .g "65" = .ok (.cg 54) ∧
    format_t 1500 = "00:00:01" ∧ value_assigner .t "00:00:01" = .ok (.ct 1000) ∧
    format_h nullH = "-32768" ∧
    format_z DblM.nan = "2000-01-01 00:00:00" := by
  refine ⟨by decide, rfl, by decide, rfl, by decide, by decide⟩

/-- C7 (amended): `parse(format(v)) = v` holds on the boolean (for the
non-null value `true`), short, int, long, char and symbol types for in-range
non-null values, and on the time type for whole-second in-day values; a null
value formats to the designated `"NULL"` text for the date and time types,
while the datetime null check (`days == nf`, an IEEE NaN comparison) never
fires. -/
theorem registry_roundtrip_amended :
    (value_assigner .b (format_b 1) = .ok (.cb 1)) ∧
    (∀ v : Int, -32768 ≤ v → v ≤ 32767 →
      value_assigner .h (format_h v) = .ok (.ch v)) ∧
    (∀ v : Int, -2147483648 ≤ v → v ≤ 2147483647 →
      value_assigner .i (format_i v) = .ok (.ci v)) ∧
    (∀ v : Int, -9223372036854775808 ≤ v → v ≤ 9223372036854775807 →
      value_assigner .j (format_j v) = .ok (.cj v)) ∧
    (∀ c : Char, value_assigner .c (format_c c) = .ok (.cc c)) ∧
    (∀ str : String, value_assigner .s (format_s (some str)) =
      .ok (.cs (some str))) ∧
    (∀ v : Int, 0 ≤ v → v < 86400000 → v.tmod 1000 = 0 →
      value_assigner .t (format_t v) = .ok (.ct v)) ∧
    (format_d nullI = "NULL") ∧ (format_t nullI = "NULL") ∧
    (∀ v : DblM, dblEq v .nan = false) := by
  refine ⟨by decide, ?_, ?_, ?_, ?_, fun str => rfl, ?_, by decide, by decide, ?_⟩
  · intro v hv1 hv2
    show (stoi_m (toDecString v)).map (fun n => Cell.ch (wrap16 n)) = _
    rw [stoi_m_toDecString v (by omega) (by omega)]
    show Except.ok (Cell.ch (wrap16 v)) = _
    rw [wrap16_eq hv1 hv2]
  · intro v hv1 hv2
    show (stoi_m (toDecString v)).map Cell.ci = _
    rw [stoi_m_toDecString v hv1 hv2]
    rfl
  · intro v hv1 hv2
    show (stoll_m (toDecString v)).map Cell.cj = _
    rw [stoll_m_toDecString v hv1 hv2]
    rfl
  · intro c
    have hne : String.mk [c] ≠ "" := by
      intro hcon
      have := congrArg String.data hcon
      simp at this
    show Except.ok (Cell.cc (if String.mk [c] = "" then ' '
      else strHead (String.mk [c]))) = _
    rw [if_neg hne]
    rfl
  · intro v h0 h1 h2
    show Except.ok (Cell.ct (parse_time (format_t v))) = _
    rw [parse_time_format_t h0 h1 h2]
  · intro v
    cases v <;> rfl

/-- Witness for C7 at concrete inputs. -/
theorem registry_roundtrip_amended_witness :
    value_assigner .h (format_h 12345) = .ok (.ch 12345) ∧
    value_assigner .i (format_i (-2000000000)) = .ok (.ci (-2000000000)) ∧
    value_assigner .j (format_j 5000000000) = .ok (.cj 5000000000) ∧
    value_assigner .c (format_c 'x') = .ok (.cc 'x') ∧
    value_assigner .t (format_t 45296000) = .ok (.ct 45296000) := by
  refine ⟨?_, ?_, ?_, ?_, ?_⟩
  · exact registry_roundtrip_amended.2.1 12345 (by omega) (by omega)
  · exact registry_roundtrip_amended.2.2.1 (-2000000000) (by omega) (by omega)
  · exact registry_roundtrip_amended.2.2.2.1 5000000000 (by omega) (by omega)
  · exact registry_roundtrip_amended.2.2.2.2.1 'x'
  · exact registry_roundtrip_amended.2.2.2.2.2.2.1 45296000 (by omega)
      (by omega) (by decide)

end KDBear
